import Mathlib

/-!
Verification of the clementine bridge core against its specification.

The Rust sources under `src/` are embedded shallowly: pure functions become
Lean functions on `Nat` and lists (a 32-byte hash is either a `List Nat` of
byte values or, where only its numeric value matters, a `Nat`); code that can
panic (failed `assert!`, out-of-range indexing, `usize` underflow) returns
`Option`, with `none` marking the panic.  SHA-256 and the compact-target
expansion live in external crates, so they are abstract function parameters
throughout; every statement below is proved for all instantiations.
-/

namespace Clementine

/-! ## `src/operator/src/utils.rs` — claim reveal indices and claim proof tree -/

/-- Embedding of `get_claim_reveal_indices` (utils.rs lines 94-114).
`none` models a panic: the initial `assert!(count <= 2u32.pow(depth))`
failing, or the `usize` underflow of `depth - 1` when `depth == 0` and a
recursive branch is reached.  The two top-level cases on `depth` mirror the
fact that the recursive branches compute `depth - 1`. -/
def get_claim_reveal_indices : Nat → Nat → Option (List (Nat × Nat))
  | 0, count =>
    if 2 ^ (0 : Nat) < count then none
    else if count = 0 then some [(0, 0)]
    else if count = 2 ^ (0 : Nat) then some []
    else none
  | d + 1, count =>
    if 2 ^ (d + 1) < count then none
    else if count = 0 then some [(0, 0)]
    else if count = 2 ^ (d + 1) then some []
    else if count % 2 = 1 then
      (get_claim_reveal_indices d ((count + 1) / 2)).map fun rest => (d + 1, count) :: rest
    else get_claim_reveal_indices d (count / 2)

/-- The spec's `reveal_indices(depth, k)` recursion of section 4.2, written
exactly as stated there: `k==0 → [(0,0)]`, `k==2^depth → []`, `k` odd →
`(depth, k)` then recurse with `(depth-1, (k+1)/2)`, `k` even → recurse with
`(depth-1, k/2)`.  Outside the spec's domain `k ≤ 2^depth` the value is
irrelevant (the base case returns `[]` there). -/
def revealIndicesSpec : Nat → Nat → List (Nat × Nat)
  | 0, k => if k = 0 then [(0, 0)] else []
  | d + 1, k =>
    if k = 0 then [(0, 0)]
    else if k = 2 ^ (d + 1) then []
    else if k % 2 = 1 then (d + 1, k) :: revealIndicesSpec d ((k + 1) / 2)
    else revealIndicesSpec d (k / 2)

/-- Embedding of `get_claim_proof_tree_leaf` (utils.rs lines 116-127): the
SHA-256 of the concatenation, in order, of the connector-tree hashes at the
reveal indices.  `sha` abstracts the `sha2::Sha256` crate; feeding a hasher
a sequence of updates equals hashing the concatenation of the byte strings.
The hash matrix is a total function, matching `connector_tree_hashes` on the
in-range indices the reveal-index list produces. -/
def get_claim_proof_tree_leaf (sha : List Nat → List Nat) (depth num_claims : Nat)
    (connector_tree_hashes : Nat → Nat → List Nat) : Option (List Nat) :=
  (get_claim_reveal_indices depth num_claims).map fun indices =>
    sha (indices.foldl (fun acc li => acc ++ connector_tree_hashes li.1 li.2) [])

/-- One iteration of the `while level < depth` loop of
`calculate_claim_proof_root` (utils.rs lines 137-149): pair up
`hashes[2i]` and `hashes[2i+1]` for `i < m`; `none` models the
out-of-range panic of `hashes[_]`. -/
def merkle_level_step (sha : List Nat → List Nat) (hashes : List (List Nat)) (m : Nat) :
    Option (List (List Nat)) :=
  (List.range m).mapM fun i =>
    match hashes[2 * i]?, hashes[2 * i + 1]? with
    | some a, some b => some (sha (a ++ b))
    | _, _ => none

/-- The whole `while` loop of `calculate_claim_proof_root`: iteration at
`level` pairs into `2 ^ (depth - level - 1)` nodes, so with `j` levels left
to run the current step produces `2 ^ (j - 1)` nodes. -/
def merkle_reduce (sha : List Nat → List Nat) : Nat → List (List Nat) → Option (List (List Nat))
  | 0, hashes => some hashes
  | j + 1, hashes =>
    match merkle_level_step sha hashes (2 ^ j) with
    | none => none
    | some next => merkle_reduce sha j next

/-- Embedding of `calculate_claim_proof_root` (utils.rs lines 128-151):
leaves `get_claim_proof_tree_leaf(depth, i, hashes)` for `i < 2^depth`,
then `depth` rounds of pairwise hashing, finally `hashes[0]`. -/
def calculate_claim_proof_root (sha : List Nat → List Nat) (depth : Nat)
    (connector_tree_hashes : Nat → Nat → List Nat) : Option (List Nat) :=
  match (List.range (2 ^ depth)).mapM
      (fun i => get_claim_proof_tree_leaf sha depth i connector_tree_hashes) with
  | none => none
  | some leaves =>
    match merkle_reduce sha depth leaves with
    | none => none
    | some final => final[0]?

/-- The spec's "complete binary Merkle over all `leaf_digest(depth, k, …)`
for k ∈ [0, 2^depth)" (section 4.2): the root of depth `d + 1` hashes the
roots of the two depth-`d` subtrees, whose leaves are `leaf` and `leaf`
shifted by `2 ^ d`. -/
def completeMerkleRoot (sha : List Nat → List Nat) : Nat → (Nat → List Nat) → List Nat
  | 0, leaf => leaf 0
  | d + 1, leaf =>
    sha (completeMerkleRoot sha d leaf ++ completeMerkleRoot sha d fun i => leaf (i + 2 ^ d))

/-! ## `src/helpers/src/bridge.rs` — header chain, work accumulation, bridge proof

Block hashes are modelled by their numeric value (a `Nat` below `2 ^ 256`),
`dsha` abstracts the `double_sha256_hash!` macro (a function from the
serialized bytes to the hash value), and `expand` abstracts the
compact-bits-to-target expansion performed inside
`validate_threshold_and_add_work` (helpers/src/bitcoin.rs, not under `src/`).
The `Environment` byte stream is modelled by passing the values each loop
reads as explicit lists. -/

/-- The six fields of a block header as read by the prover loops
(bridge.rs lines 35-39): `version, merkle_root, time, bits, nonce`; the
`prev_hash` field is the chain state, not part of this record. -/
structure BlockHeader where
  version : Nat
  merkle_root : Nat
  time : Nat
  bits : Nat
  nonce : Nat
deriving DecidableEq

/-- Little-endian byte serialization of a `w`-byte machine integer. -/
def toLeBytes (w n : Nat) : List Nat :=
  (List.range w).map fun i => n / 256 ^ i % 256

/-- The argument of `double_sha256_hash!` in bridge.rs lines 45-52 and
86-93: the 80-byte header serialization
`version_le ∥ prev ∥ merkle_root ∥ time_le ∥ bits_le ∥ nonce_le`. -/
def serializeHeader (h : BlockHeader) (prev : Nat) : List Nat :=
  toLeBytes 4 h.version ++ toLeBytes 32 prev ++ toLeBytes 32 h.merkle_root ++
    toLeBytes 4 h.time ++ toLeBytes 4 h.bits ++ toLeBytes 4 h.nonce

/-- The hash-chain value carried through the header loops: folding the
double-SHA-256 of each successive header over the start hash.  After
consuming `headers`, this is the `curr_prev_block_hash` variable. -/
def chain_hash (dsha : List Nat → Nat) (start : Nat) (headers : List BlockHeader) : Nat :=
  headers.foldl (fun prev h => dsha (serializeHeader h prev)) start

/-- Modelled from the spec: `validate_threshold_and_add_work` lives in
helpers/src/bitcoin.rs, which is not under `src/`.  Section 4.7 of the spec:
"Assert `hash ≤ target(bits)` (compact→target expansion); add
`2^256 / (target+1)` to `total_work` (wrapping)."  The compact→target
expansion is the caller-supplied `expand` applied to the header's `bits`
field, so this function receives the already-expanded `target`; `none`
models the assertion failing. -/
def validate_threshold_and_add_work (target hash work : Nat) : Option Nat :=
  if hash ≤ target then some ((work + 2 ^ 256 / (target + 1)) % 2 ^ 256) else none

/-- The `for i in 0..n` loop of `read_blocks_and_add_to_merkle_tree`
(bridge.rs lines 33-58).  Per iteration: append `prev` to the incremental
Merkle tree (modelled by the list of appended leaves — the tree itself lives
in helpers/src/incremental_merkle.rs, not under `src/`, and only the leaf
sequence matters here); snapshot `lc := prev` when `i == n - 4` (the `i + 4
= n` form is the wrapping `u32` subtraction); hash the header; validate the
freshly computed hash against this header's bits and accumulate work. -/
def rbamtLoop (dsha : List Nat → Nat) (expand : Nat → Nat) (n : Nat) :
    List BlockHeader → Nat → Nat → Nat → Nat → List Nat → Option (Nat × Nat × Nat × List Nat)
  | [], _, prev, work, lc, leaves => some (work, lc, prev, leaves)
  | h :: rest, i, prev, work, lc, leaves =>
    let leaves' := leaves ++ [prev]
    let lc' := if i + 4 = n then prev else lc
    let newPrev := dsha (serializeHeader h prev)
    match validate_threshold_and_add_work (expand h.bits) newPrev work with
    | none => none
    | some work' => rbamtLoop dsha expand n rest (i + 1) newPrev work' lc' leaves'

/-- Embedding of `read_blocks_and_add_to_merkle_tree` (bridge.rs lines
20-60): the environment's `N` is the length of the supplied header list;
returns `(total_work, lc_block_hash, curr_prev_block_hash)` plus the leaves
appended to the block-hash Merkle tree. -/
def read_blocks_and_add_to_merkle_tree (dsha : List Nat → Nat) (expand : Nat → Nat)
    (start_prev_block_hash : Nat) (headers : List BlockHeader) (leaves : List Nat) :
    Option (Nat × Nat × Nat × List Nat) :=
  rbamtLoop dsha expand headers.length headers 0 start_prev_block_hash 0 0 leaves

/-- The `for _ in 0..k` loop of `read_blocks_and_calculate_work` (bridge.rs
lines 75-94).  Note the order taken from the source: the validation uses
`curr_prev_block_hash` as it stands **before** this header's own hash is
computed; the hash update happens after. -/
def rbcwLoop (dsha : List Nat → Nat) (expand : Nat → Nat) :
    List BlockHeader → Nat → Nat → Option Nat
  | [], _, work => some work
  | h :: rest, prev, work =>
    match validate_threshold_and_add_work (expand h.bits) prev work with
    | none => none
    | some work' => rbcwLoop dsha expand rest (dsha (serializeHeader h prev)) work'

/-- Embedding of `read_blocks_and_calculate_work` (bridge.rs lines 66-96):
the environment's `K` is the length of the supplied header list. -/
def read_blocks_and_calculate_work (dsha : List Nat → Nat) (expand : Nat → Nat)
    (start_prev_block_hash : Nat) (headers : List BlockHeader) : Option Nat :=
  rbcwLoop dsha expand headers start_prev_block_hash 0

/-- `START_BLOCKHASH` (bridge.rs line 135): the all-zero 32-byte hash. -/
def START_BLOCKHASH : Nat := 0

/-- Embedding of `read_merkle_tree_proof` (bridge.rs lines 99-104): the
body is `unimplemented!()`, an unconditional panic, so the embedding is
the constant `none` — its doc comment promises a Merkle-proof check the
body cannot deliver. -/
def read_merkle_tree_proof : Option Nat := none

/-- Embedding of `read_preimages_and_calculate_commit_taproot` (bridge.rs
lines 121-123): the body is `unimplemented!()`, an unconditional panic. -/
def read_preimages_and_calculate_commit_taproot : Option (Nat × Nat) := none

/-- Embedding of `read_and_verify_verifiers_challenge_proof` (bridge.rs
lines 131-133): the body is `unimplemented!()`, an unconditional panic.
Kept to record that the challenge read feeding the decision at bridge.rs
line 179 also cannot return. -/
def read_and_verify_verifiers_challenge_proof : Option (Nat × Nat × Nat) := none

/-- Embedding of `read_withdrawal_proof` (bridge.rs lines 107-119).  It
reads the output address and transaction and checks the Bitcoin Merkle
path (`read_tx_and_calculate_txid` and
`read_and_verify_bitcoin_merkle_path` are in helpers/src/bitcoin.rs,
outside `src/`); whether or not those succeed, the `assert_eq!` that
follows calls `read_merkle_tree_proof`, whose `unimplemented!()` body
panics before `imt.add(output_address)` runs.  The `some` arm — dead,
since the stub never returns — appends the address to the withdrawal tree
leaves. -/
def read_withdrawal_proof (wmt : List Nat) (output_address : Nat) : Option (List Nat) :=
  match read_merkle_tree_proof with
  | none => none
  | some _ => some (wmt ++ [output_address])

/-- The `for _ in 0..num_withdrawals` loop of `bridge_proof` (bridge.rs
lines 150-152), threading the withdrawal-tree leaves. -/
def read_withdrawals (wmt : List Nat) : List Nat → Option (List Nat)
  | [] => some wmt
  | a :: rest =>
    match read_withdrawal_proof wmt a with
    | none => none
    | some wmt' => read_withdrawals wmt' rest

/-- What one round of the `bridge_proof` loop reads from the environment
before it can panic: the block headers, the withdrawal output addresses
and the `finish_proof` flag.  The remaining reads of a `finish_proof = 1`
round (preimages, commit/reveal transactions, K-deep headers, the
verifier challenge) sit behind
`read_preimages_and_calculate_commit_taproot`, whose `unimplemented!()`
body panics first: no execution reaches them, so no field represents
them. -/
structure PeriodInput where
  headers : List BlockHeader
  withdrawals : List Nat
  finish_proof : Nat
deriving DecidableEq

/-- Observable outcome of `bridge_proof`: the early `return` of the
challenge decision (bridge.rs line 180 — present in the source but
unreachable while the `unimplemented!()` stubs precede it), normal
completion of all rounds, or a panic (failed assertion, exhausted stream,
or an `unimplemented!()` body). -/
inductive BridgeOutcome where
  | earlyWin : BridgeOutcome
  | completed : BridgeOutcome
  | panicked : BridgeOutcome
deriving DecidableEq

/-- The `for i in 0..NUM_ROUNDS` loop of `bridge_proof` (bridge.rs lines
143-185), carrying `total_pow`, `last_block_hash`, the block-hash Merkle
tree leaves and the withdrawal tree leaves.  Every withdrawal proof
panics inside `read_withdrawal_proof` (via `read_merkle_tree_proof`).
When `finish_proof == 1`: `read_and_verify_lc_proof` is a no-op in the
source (bridge.rs lines 125-129), and the very next call,
`read_preimages_and_calculate_commit_taproot`, panics, so the rest of the
finish block — the inclusion-proof assertions, the K-deep work, the
challenge read and the decision at line 179 — is dead code; the
unreachable `some` arm stands for that block and is also `.panicked`,
since every path through it hits `read_merkle_tree_proof` or
`read_and_verify_verifiers_challenge_proof`, both `unimplemented!()`.
Otherwise the loop continues with `last_block_hash = cur_block_hash`. -/
def bridge_proof_loop (dsha : List Nat → Nat) (expand : Nat → Nat) :
    Nat → List PeriodInput → Nat → Nat → List Nat → List Nat → BridgeOutcome
  | 0, _, _, _, _, _ => .completed
  | _ + 1, [], _, _, _, _ => .panicked
  | r + 1, p :: rest, total_pow, last_bh, bleaves, wmt =>
    match read_blocks_and_add_to_merkle_tree dsha expand last_bh p.headers bleaves with
    | none => .panicked
    | some (work, _lc, cur, bleaves') =>
      let tp1 := (total_pow + work) % 2 ^ 256
      match read_withdrawals wmt p.withdrawals with
      | none => .panicked
      | some wmt' =>
        if p.finish_proof = 1 then
          match read_preimages_and_calculate_commit_taproot with
          | none => .panicked
          | some _ => .panicked
        else bridge_proof_loop dsha expand r rest tp1 cur bleaves' wmt'

/-- Embedding of `bridge_proof` (bridge.rs lines 138-186): `numRounds` is
the `NUM_ROUNDS` configuration constant (helpers/src/config.rs, not under
`src/`, so kept as a parameter); both Merkle trees start empty and
`last_block_hash` starts at `START_BLOCKHASH`. -/
def bridge_proof (dsha : List Nat → Nat) (expand : Nat → Nat) (numRounds : Nat)
    (periods : List PeriodInput) : BridgeOutcome :=
  bridge_proof_loop dsha expand numRounds periods 0 START_BLOCKHASH [] []

/-! ## `src/core/src/script_builder.rs` — tapscripts

A script is its byte list.  `Builder::push_slice` on data of 1 to 75 bytes
emits the single length byte followed by the data (the minimal push; all
slices pushed here are 20 or 32 bytes). -/

def OP_SHA256 : Nat := 168

def OP_EQUAL : Nat := 135

def OP_EQUALVERIFY : Nat := 136

def OP_RETURN : Nat := 106

/-- `Builder::push_slice` for a slice of 1 to 75 bytes. -/
def pushSlice (data : List Nat) : List Nat := data.length :: data

/-- Embedding of `ScriptBuilder::generate_hash_script` (script_builder.rs
lines 107-113): `OP_SHA256 <push 32-byte hash> OP_EQUAL`. -/
def generate_hash_script (hash : List Nat) : List Nat :=
  [OP_SHA256] ++ pushSlice hash ++ [OP_EQUAL]

/-- The hash-guard script as the spec states it (section 4.1): "prepend
`OP_SHA256 <hash> OP_EQUALVERIFY` before the signature checks". -/
def hashScriptSpec (hash : List Nat) : List Nat :=
  [OP_SHA256] ++ pushSlice hash ++ [OP_EQUALVERIFY]

/-- Embedding of `ScriptBuilder::generate_dust_script` (script_builder.rs
lines 115-120): a plain `OP_RETURN <push 20-byte evm address>` script. -/
def generate_dust_script (evm_address : List Nat) : List Nat :=
  [OP_RETURN] ++ pushSlice evm_address

/-- `ScriptBuf::to_p2wsh` from the external `bitcoin` crate: the version-0
witness program `OP_0 <push 32-byte SHA-256 of the script>`; `sha`
abstracts SHA-256. -/
def to_p2wsh (sha : List Nat → List Nat) (script : List Nat) : List Nat :=
  [0, 32] ++ sha script

/-- A transaction output: value in satoshis and the locking script. -/
structure TxOutM where
  value : Nat
  script_pubkey : List Nat
deriving DecidableEq

/-- Embedding of `ScriptBuilder::op_return_txout` (script_builder.rs lines
30-41): builds the `OP_RETURN <evm_address>` script, then — per the source —
takes `.to_p2wsh()` of it as the output's `script_pubkey`, with the dust
value of that `script_pubkey` as the amount.  `dust` abstracts the external
crate's `dust_value`. -/
def op_return_txout (sha : List Nat → List Nat) (dust : List Nat → Nat)
    (evm_address : List Nat) : TxOutM :=
  let script := [OP_RETURN] ++ pushSlice evm_address
  let script_pubkey := to_p2wsh sha script
  ⟨dust script_pubkey, script_pubkey⟩

/-- The op_return txout as the claim states it: an output whose
`script_pubkey` is itself the data-carrying `OP_RETURN` script embedding
the EVM address. -/
def opReturnTxoutSpec (dust : List Nat → Nat) (evm_address : List Nat) : TxOutM :=
  let script := [OP_RETURN] ++ pushSlice evm_address
  ⟨dust script, script⟩

/-! ## `src/operator/src/operator.rs` — move and claim transactions

`TransactionBuilder` (operator/src/transaction_builder.rs) and the
configuration constants `BRIDGE_AMOUNT_SATS`, `DUST_VALUE`,
`MIN_RELAY_FEE`, `CONNECTOR_TREE_OPERATOR_TAKES_AFTER` are not under
`src/`; the builders are modelled from the spec (section 4.3) and the
constants are parameters `B`, `D`, `F`, `takesAfter`. -/

/-- An outpoint `(txid, vout)`; the txid is abstracted to its value. -/
structure OutPointM where
  txid : Nat
  vout : Nat
deriving DecidableEq

/-- A transaction input: previous outpoint and sequence number. -/
structure TxInM where
  previous_output : OutPointM
  sequence : Nat
deriving DecidableEq

/-- A transaction as input and output lists. -/
structure TxM where
  input : List TxInM
  output : List TxOutM
deriving DecidableEq

/-- The default input sequence (`0xFFFFFFFF`). -/
def SEQUENCE_MAX : Nat := 4294967295

/-- Modelled from the spec: `TransactionBuilder::create_tx_ins` — one input
per outpoint with the default sequence. -/
def create_tx_ins (utxos : List OutPointM) : List TxInM :=
  utxos.map fun u => ⟨u, SEQUENCE_MAX⟩

/-- Modelled from the spec: `TransactionBuilder::create_tx_ins_with_sequence`
— one input per outpoint; section 4.3: "Sequence on the connector input is
`CONNECTOR_TREE_OPERATOR_TAKES_AFTER`" (the `takesAfter` parameter). -/
def create_tx_ins_with_sequence (takesAfter : Nat) (utxos : List OutPointM) : List TxInM :=
  utxos.map fun u => ⟨u, takesAfter⟩

/-- Modelled from the spec: `TransactionBuilder::create_tx_outs` — one
output per `(amount, script_pubkey)` pair. -/
def create_tx_outs (pairs : List (Nat × List Nat)) : List TxOutM :=
  pairs.map fun p => ⟨p.1, p.2⟩

/-- Modelled from the spec: `TransactionBuilder::create_btc_tx`. -/
def create_btc_tx (ins : List TxInM) (outs : List TxOutM) : TxM := ⟨ins, outs⟩

/-- Modelled from the spec: `TransactionBuilder::create_move_tx` composes
`create_tx_ins` and `create_tx_outs`. -/
def create_move_tx (utxos : List OutPointM) (outs : List (Nat × List Nat)) : TxM :=
  create_btc_tx (create_tx_ins utxos) (create_tx_outs outs)

/-- The move transaction built inside `Operator::new_deposit` (operator.rs
lines 220-234): one input (the deposit UTXO), and two outputs —
`BRIDGE_AMOUNT_SATS - DUST_VALUE - MIN_RELAY_FEE` to the n-of-n-without-hash
script and `DUST_VALUE` to the anyone-can-spend script pubkey.  The two
script values come from `generate_n_of_n_script_without_hash` and
`handle_anyone_can_spend_script`, which are not under `src/`, so they are
parameters. -/
def new_deposit_move_tx (B D F : Nat) (deposit_utxo : OutPointM)
    (n_of_n_script acs_script_pubkey : List Nat) : TxM :=
  create_move_tx [deposit_utxo] [(B - D - F, n_of_n_script), (D, acs_script_pubkey)]

/-- The move transaction built and broadcast inside
`Operator::deposit_happened` (operator.rs lines 310-316): one input (the
deposit UTXO) and a **single** output of `BRIDGE_AMOUNT_SATS -
MIN_RELAY_FEE` to the taproot address of the n-of-n-without-hash script. -/
def deposit_happened_move_tx (B F : Nat) (deposit_utxo : OutPointM)
    (address_script_pubkey : List Nat) : TxM :=
  create_move_tx [deposit_utxo] [(B - F, address_script_pubkey)]

/-- The claim transaction built inside `Operator::claim_deposit`
(operator.rs lines 610-621): inputs `create_tx_ins([fund_utxo])` extended
with `create_tx_ins_with_sequence([connector_utxo])`, and a single output
of `BRIDGE_AMOUNT_SATS + DUST_VALUE - MIN_RELAY_FEE * 2` to the operator's
own script pubkey. -/
def claim_deposit_tx (B D F takesAfter : Nat) (fund_utxo connector_utxo : OutPointM)
    (operator_script_pubkey : List Nat) : TxM :=
  create_btc_tx
    (create_tx_ins [fund_utxo] ++ create_tx_ins_with_sequence takesAfter [connector_utxo])
    (create_tx_outs [(B + D - F * 2, operator_script_pubkey)])

/-! ## Concrete instances used by counterexamples and witnesses -/

/-- A degenerate hash for counterexamples: every input hashes to `5`. -/
def cexDsha : List Nat → Nat := fun _ => 5

/-- A degenerate target expansion for counterexamples: every compact-bits
value expands to target `3`. -/
def cexExpand : Nat → Nat := fun _ => 3

/-- An all-zero-field block header. -/
def zeroHeader : BlockHeader := ⟨0, 0, 0, 0, 0⟩

/-- A second degenerate hash for counterexamples: every input hashes to `2`. -/
def cexDsha2 : List Nat → Nat := fun _ => 2

/-- A degenerate SHA-256 for witnesses of the claim tree: the length of the
input as a one-byte digest. -/
def t7Sha : List Nat → List Nat := fun l => [l.length]

/-- A constant connector-hash matrix for witnesses of the claim tree. -/
def t7Hashes : Nat → Nat → List Nat := fun _ _ => [7]

/-- The leaf values `t7Sha` and `t7Hashes` produce at depth 1. -/
def t7Leaf : Nat → List Nat := fun _ => [1]

/-- Hash for the C8 witness run: everything hashes to `3`. -/
def t8Dsha : List Nat → Nat := fun _ => 3

/-- Target expansion for the C8 witness run: constant target `3`. -/
def t8Expand : Nat → Nat := fun _ => 3

/-- Six identical headers for the C8 witness run. -/
def t8Headers : List BlockHeader := List.replicate 6 zeroHeader

/-- Hash for the C3 witness run: everything hashes to `0`. -/
def t3Dsha : List Nat → Nat := fun _ => 0

/-- Target expansion for the C3 witness run (never consulted, since the
witness period reads no headers). -/
def t3Expand : Nat → Nat := fun _ => 0

/-- The C3 witness period: no headers, no withdrawals, `finish_proof = 1`
— the round reaches `read_preimages_and_calculate_commit_taproot` and
panics there. -/
def t3Period : PeriodInput :=
  { headers := []
    withdrawals := []
    finish_proof := 1 }

/-! ### Helper lemmas for the claim tree -/

theorem gcri_eq_spec (d : Nat) :
    ∀ k, k ≤ 2 ^ d → get_claim_reveal_indices d k = some (revealIndicesSpec d k) := by
  induction d with
  | zero =>
    intro k hk
    norm_num at hk
    interval_cases k <;> decide
  | succ d ih =>
    intro k hk
    have hpow : 2 ^ (d + 1) = 2 * 2 ^ d := by rw [Nat.pow_succ]; ring
    by_cases h0 : k = 0
    · subst h0; simp [get_claim_reveal_indices, revealIndicesSpec]
    by_cases h2 : k = 2 ^ (d + 1)
    · subst h2; simp [get_claim_reveal_indices, revealIndicesSpec]
    have hng : ¬ 2 ^ (d + 1) < k := Nat.not_lt.mpr hk
    have hlt : k < 2 ^ (d + 1) := lt_of_le_of_ne hk h2
    by_cases hodd : k % 2 = 1
    · have hrec : (k + 1) / 2 ≤ 2 ^ d := by omega
      simp [get_claim_reveal_indices, revealIndicesSpec, h0, h2, hng, hodd,
        ih _ hrec]
    · have hrec : k / 2 ≤ 2 ^ d := by omega
      simp [get_claim_reveal_indices, revealIndicesSpec, h0, h2, hng, hodd,
        ih _ hrec]

theorem mapM_of_forall_some {α : Type} (f : Nat → Option α) (g : Nat → α) :
    ∀ l : List Nat, (∀ k ∈ l, f k = some (g k)) → l.mapM f = some (l.map g) := by
  intro l
  induction l with
  | nil => intro _; rfl
  | cons a l ih =>
    intro h
    rw [List.mapM_cons, h a (List.mem_cons_self a l), ih fun k hk => h k (List.mem_cons_of_mem a hk)]
    rfl

theorem getElem?_range_map {α : Type} (f : Nat → α) {i n : Nat} (h : i < n) :
    ((List.range n).map f)[i]? = some (f i) := by
  rw [List.getElem?_map, List.getElem?_range h]
  rfl

theorem merkle_level_step_map (sha : List Nat → List Nat) (f : Nat → List Nat) (d : Nat) :
    merkle_level_step sha ((List.range (2 ^ (d + 1))).map f) (2 ^ d) =
      some ((List.range (2 ^ d)).map fun i => sha (f (2 * i) ++ f (2 * i + 1))) := by
  apply mapM_of_forall_some
  intro k hk
  have hk' : k < 2 ^ d := List.mem_range.mp hk
  have hpow : 2 ^ (d + 1) = 2 * 2 ^ d := by rw [Nat.pow_succ]; ring
  rw [getElem?_range_map f (by omega), getElem?_range_map f (by omega)]

theorem completeMerkleRoot_pair (sha : List Nat → List Nat) (d : Nat) :
    ∀ f, completeMerkleRoot sha (d + 1) f =
      completeMerkleRoot sha d fun i => sha (f (2 * i) ++ f (2 * i + 1)) := by
  induction d with
  | zero =>
    intro f
    simp [completeMerkleRoot]
  | succ d ih =>
    intro f
    calc
      completeMerkleRoot sha (d + 2) f
          = sha (completeMerkleRoot sha (d + 1) f ++
              completeMerkleRoot sha (d + 1) fun i => f (i + 2 ^ (d + 1))) := rfl
      _ = sha ((completeMerkleRoot sha d fun i => sha (f (2 * i) ++ f (2 * i + 1))) ++
              completeMerkleRoot sha d fun i =>
                sha (f (2 * i + 2 ^ (d + 1)) ++ f (2 * i + 1 + 2 ^ (d + 1)))) := by
            rw [ih f, ih fun i => f (i + 2 ^ (d + 1))]
      _ = sha ((completeMerkleRoot sha d fun i => sha (f (2 * i) ++ f (2 * i + 1))) ++
              completeMerkleRoot sha d fun i =>
                sha (f (2 * (i + 2 ^ d)) ++ f (2 * (i + 2 ^ d) + 1))) := by
            have harg : (fun i => sha (f (2 * i + 2 ^ (d + 1)) ++ f (2 * i + 1 + 2 ^ (d + 1)))) =
                fun i => sha (f (2 * (i + 2 ^ d)) ++ f (2 * (i + 2 ^ d) + 1)) := by
              funext i
              have h2 : 2 * (i + 2 ^ d) = 2 * i + 2 ^ (d + 1) := by rw [Nat.pow_succ]; ring
              rw [h2, show 2 * i + 1 + 2 ^ (d + 1) = 2 * i + 2 ^ (d + 1) + 1 from by omega]
            rw [harg]
      _ = completeMerkleRoot sha (d + 1) fun i => sha (f (2 * i) ++ f (2 * i + 1)) := rfl

theorem merkle_reduce_map (sha : List Nat → List Nat) (d : Nat) :
    ∀ f, merkle_reduce sha d ((List.range (2 ^ d)).map f) =
      some [completeMerkleRoot sha d f] := by
  induction d with
  | zero =>
    intro f
    rfl
  | succ d ih =>
    intro f
    calc merkle_reduce sha (d + 1) ((List.range (2 ^ (d + 1))).map f)
        = merkle_reduce sha d
            ((List.range (2 ^ d)).map fun i => sha (f (2 * i) ++ f (2 * i + 1))) := by
          rw [merkle_reduce, merkle_level_step_map]
      _ = some [completeMerkleRoot sha d fun i => sha (f (2 * i) ++ f (2 * i + 1))] := ih _
      _ = some [completeMerkleRoot sha (d + 1) f] := by rw [completeMerkleRoot_pair]

/-! ### Helper lemmas for the header loops -/

theorem validate_le {target hash work work' : Nat}
    (h : validate_threshold_and_add_work target hash work = some work') : hash ≤ target := by
  by_contra hle
  rw [validate_threshold_and_add_work, if_neg hle] at h
  exact Option.noConfusion h

theorem rbamtLoop_hash_le (dsha : List Nat → Nat) (expand : Nat → Nat) (n : Nat) :
    ∀ (headers : List BlockHeader) (i prev work lc : Nat) (leaves : List Nat)
      (res : Nat × Nat × Nat × List Nat),
      rbamtLoop dsha expand n headers i prev work lc leaves = some res →
      ∀ j (hj : j < headers.length),
        chain_hash dsha prev (headers.take (j + 1)) ≤ expand ((headers.get ⟨j, hj⟩).bits) := by
  intro headers
  induction headers with
  | nil =>
    intro _ _ _ _ _ _ _ j hj
    exact absurd hj (by simp)
  | cons h rest ih =>
    intro i prev work lc leaves res hrun j hj
    simp only [rbamtLoop] at hrun
    cases hv : validate_threshold_and_add_work (expand h.bits) (dsha (serializeHeader h prev))
        work with
    | none => rw [hv] at hrun; exact Option.noConfusion hrun
    | some w' =>
      rw [hv] at hrun
      match j with
      | 0 => simpa [chain_hash] using validate_le hv
      | j + 1 =>
        have hrec := ih (i + 1) (dsha (serializeHeader h prev)) w'
          (if i + 4 = n then prev else lc) (leaves ++ [prev]) res hrun j
          (by simpa using Nat.lt_of_succ_lt_succ hj)
        simpa [chain_hash, List.take_succ_cons] using hrec

theorem rbcwLoop_hash_le (dsha : List Nat → Nat) (expand : Nat → Nat) :
    ∀ (headers : List BlockHeader) (prev work : Nat) (res : Nat),
      rbcwLoop dsha expand headers prev work = some res →
      ∀ j (hj : j < headers.length),
        chain_hash dsha prev (headers.take j) ≤ expand ((headers.get ⟨j, hj⟩).bits) := by
  intro headers
  induction headers with
  | nil =>
    intro _ _ _ _ j hj
    exact absurd hj (by simp)
  | cons h rest ih =>
    intro prev work res hrun j hj
    simp only [rbcwLoop] at hrun
    cases hv : validate_threshold_and_add_work (expand h.bits) prev work with
    | none => rw [hv] at hrun; exact Option.noConfusion hrun
    | some w' =>
      rw [hv] at hrun
      match j with
      | 0 => simpa [chain_hash] using validate_le hv
      | j + 1 =>
        have hrec := ih (dsha (serializeHeader h prev)) w' res hrun j
          (by simpa using Nat.lt_of_succ_lt_succ hj)
        simpa [chain_hash, List.take_succ_cons] using hrec

theorem rbamtLoop_lc (dsha : List Nat → Nat) (expand : Nat → Nat) (n : Nat) :
    ∀ (headers : List BlockHeader) (i prev work lc0 : Nat) (leaves : List Nat)
      (w lc c : Nat) (lv : List Nat),
      rbamtLoop dsha expand n headers i prev work lc0 leaves = some (w, lc, c, lv) →
      i + headers.length = n →
      (4 ≤ headers.length →
        lc = chain_hash dsha prev (headers.take (headers.length - 4))) ∧
      (headers.length < 4 → lc = lc0) := by
  intro headers
  induction headers with
  | nil =>
    intro i prev work lc0 leaves w lc c lv hrun _
    simp only [rbamtLoop, Option.some.injEq, Prod.mk.injEq] at hrun
    exact ⟨fun h4 => absurd h4 (by simp), fun _ => hrun.2.1.symm⟩
  | cons h rest ih =>
    intro i prev work lc0 leaves w lc c lv hrun hn
    simp only [rbamtLoop] at hrun
    cases hv : validate_threshold_and_add_work (expand h.bits) (dsha (serializeHeader h prev))
        work with
    | none => rw [hv] at hrun; exact Option.noConfusion hrun
    | some w' =>
      rw [hv] at hrun
      have hn' : (i + 1) + rest.length = n := by simp at hn; omega
      have hrec := ih (i + 1) (dsha (serializeHeader h prev)) w'
        (if i + 4 = n then prev else lc0) (leaves ++ [prev]) w lc c lv hrun hn'
      constructor
      · intro h4
        have hlen : (h :: rest).length = rest.length + 1 := by simp
        by_cases hge : 4 ≤ rest.length
        · have := hrec.1 hge
          rw [this]
          have htake : (h :: rest).take ((h :: rest).length - 4) =
              h :: rest.take (rest.length - 4) := by
            rw [hlen, show rest.length + 1 - 4 = (rest.length - 4) + 1 from by omega,
              List.take_succ_cons]
          rw [htake]
          simp [chain_hash]
        · have hr3 : rest.length = 3 := by simp at h4; omega
          have hcond : i + 4 = n := by omega
          have := hrec.2 (by omega)
          rw [this, if_pos hcond]
          have : (h :: rest).length - 4 = 0 := by simp [hr3]
          rw [this]
          simp [chain_hash]
      · intro h4
        have hr : rest.length < 3 := by simp at h4; omega
        have hcond : ¬ i + 4 = n := by omega
        have := hrec.2 (by omega)
        rw [this, if_neg hcond]

theorem rbamt_two_headers (dsha : List Nat → Nat) (expand : Nat → Nat) (s : Nat)
    (h1 h2 : BlockHeader) (hbits : h1.bits = h2.bits)
    (hle1 : dsha (serializeHeader h1 s) ≤ expand h1.bits)
    (hle2 : dsha (serializeHeader h2 (dsha (serializeHeader h1 s))) ≤ expand h2.bits) :
    read_blocks_and_add_to_merkle_tree dsha expand s [h1, h2] [] =
      some (2 * (2 ^ 256 / (expand h1.bits + 1)) % 2 ^ 256, 0,
        dsha (serializeHeader h2 (dsha (serializeHeader h1 s))),
        [s, dsha (serializeHeader h1 s)]) := by
  have hle2' : dsha (serializeHeader h2 (dsha (serializeHeader h1 s))) ≤ expand h1.bits := by
    rw [hbits]; exact hle2
  simp [read_blocks_and_add_to_merkle_tree, rbamtLoop, validate_threshold_and_add_work,
    hle1, hle2', ← hbits, Nat.mod_add_mod, two_mul]

theorem rbcw_two_headers (dsha : List Nat → Nat) (expand : Nat → Nat) (s : Nat)
    (h1 h2 : BlockHeader) (hbits : h1.bits = h2.bits)
    (hle1 : s ≤ expand h1.bits)
    (hle2 : dsha (serializeHeader h1 s) ≤ expand h2.bits) :
    read_blocks_and_calculate_work dsha expand s [h1, h2] =
      some (2 * (2 ^ 256 / (expand h1.bits + 1)) % 2 ^ 256) := by
  have hle2' : dsha (serializeHeader h1 s) ≤ expand h1.bits := by
    rw [hbits]; exact hle2
  simp [read_blocks_and_calculate_work, rbcwLoop, validate_threshold_and_add_work,
    hle1, hle2', ← hbits, Nat.mod_add_mod, two_mul]

/-! ## Claim theorems -/

/-- C1: for every depth `D` and count `k` with `k ≤ 2^D`,
`get_claim_reveal_indices(D, k)` returns exactly the list given by the
spec's recursion (`[(0,0)]` when `k = 0`, `[]` when `k = 2^D`, `(D, k)`
prepended to the result for `(D-1, (k+1)/2)` when `k` is odd, the result
for `(D-1, k/2)` when `k` is even), and in particular the four published
table entries for `(3,5)`, `(2,1)`, `(3,0)` and `(3,8)` hold. -/
theorem c1_reveal_indices_follow_spec :
    (∀ d k, k ≤ 2 ^ d → get_claim_reveal_indices d k = some (revealIndicesSpec d k)) ∧
    get_claim_reveal_indices 3 5 = some [(3, 5), (2, 3)] ∧
    get_claim_reveal_indices 2 1 = some [(2, 1), (1, 1)] ∧
    get_claim_reveal_indices 3 0 = some [(0, 0)] ∧
    get_claim_reveal_indices 3 8 = some [] :=
  ⟨gcri_eq_spec, by decide, by decide, by decide, by decide⟩

theorem c1_witness :
    5 ≤ 2 ^ 3 ∧ get_claim_reveal_indices 3 5 = some (revealIndicesSpec 3 5) :=
  ⟨by decide, c1_reveal_indices_follow_spec.1 3 5 (by decide)⟩

/-- C10: `get_claim_reveal_indices` is total on its documented domain and
rejects the rest — for every `D` and `k ≤ 2^D` it returns a value (no
assertion failure and no `usize` underflow of `depth - 1`, both of which
the embedding marks with `none`), while for every `k > 2^D` the initial
assertion fails. -/
theorem c10_reveal_indices_total_on_domain :
    (∀ d k, k ≤ 2 ^ d → (get_claim_reveal_indices d k).isSome = true) ∧
    (∀ d k, 2 ^ d < k → get_claim_reveal_indices d k = none) := by
  constructor
  · intro d k hk
    rw [gcri_eq_spec d k hk]
    rfl
  · intro d k hk
    cases d with
    | zero =>
      simp only [get_claim_reveal_indices]
      rw [if_pos hk]
    | succ d =>
      simp only [get_claim_reveal_indices]
      rw [if_pos hk]

theorem c10_witness :
    6 ≤ 2 ^ 3 ∧ (get_claim_reveal_indices 3 6).isSome = true ∧
    2 ^ 3 < 9 ∧ get_claim_reveal_indices 3 9 = none :=
  ⟨by decide, c10_reveal_indices_total_on_domain.1 3 6 (by decide), by decide,
    c10_reveal_indices_total_on_domain.2 3 9 (by decide)⟩

/-- C7: for every hash function, depth and hash matrix,
`calculate_claim_proof_root` equals the complete binary Merkle root over
the `2^D` leaves produced by `get_claim_proof_tree_leaf` (the `leaf`
function of the hypothesis). -/
theorem c7_claim_proof_root_is_complete_merkle (sha : List Nat → List Nat) (depth : Nat)
    (connector_tree_hashes : Nat → Nat → List Nat) (leaf : Nat → List Nat)
    (hleaf : ∀ k, k < 2 ^ depth →
      get_claim_proof_tree_leaf sha depth k connector_tree_hashes = some (leaf k)) :
    calculate_claim_proof_root sha depth connector_tree_hashes =
      some (completeMerkleRoot sha depth leaf) := by
  unfold calculate_claim_proof_root
  rw [mapM_of_forall_some _ leaf _ fun k hk => hleaf k (List.mem_range.mp hk)]
  simp only [merkle_reduce_map]
  rfl

theorem c7_witness :
    (∀ k, k < 2 ^ 1 → get_claim_proof_tree_leaf t7Sha 1 k t7Hashes = some (t7Leaf k)) ∧
    calculate_claim_proof_root t7Sha 1 t7Hashes = some (completeMerkleRoot t7Sha 1 t7Leaf) :=
  ⟨by decide, c7_claim_proof_root_is_complete_merkle t7Sha 1 t7Hashes t7Leaf (by decide)⟩

/-- C2 counterexample: the claim asserts that `read_blocks_and_calculate_work`
checks each header's **own** hash against that header's target.  It does
not: with every serialization hashing to `5` and every target expanding to
`3`, a single header whose own hash (`5`) exceeds its own target (`3`) is
accepted because the carried-in start hash is `0 ≤ 3`; conversely, with
every hash `2 ≤ 3` but start hash `7 > 3`, the same header is rejected. -/
theorem c2_counterexample :
    (read_blocks_and_calculate_work cexDsha cexExpand 0 [zeroHeader]).isSome = true ∧
    cexExpand zeroHeader.bits < cexDsha (serializeHeader zeroHeader 0) ∧
    read_blocks_and_calculate_work cexDsha2 cexExpand 7 [zeroHeader] = none ∧
    cexDsha2 (serializeHeader zeroHeader 7) ≤ cexExpand zeroHeader.bits :=
  ⟨by decide, by decide, by decide, by decide⟩

/-- C2 (amended): in `read_blocks_and_add_to_merkle_tree` every accepted
run checks each header's own double-SHA-256 hash against that header's own
target, while in `read_blocks_and_calculate_work` the hash checked against
header `j`'s target is the chain hash carried **into** iteration `j` (the
start hash for `j = 0`); in both, every accepted header adds
`2^256 / (target+1)` with wrapping 256-bit addition, so two valid headers
with equal bits yield `total_work = 2·(2^256/(target+1)) mod 2^256`. -/
theorem c2_work_accumulation_amended :
    (∀ (dsha : List Nat → Nat) (expand : Nat → Nat) (s : Nat) (headers : List BlockHeader)
      (leaves : List Nat) (res : Nat × Nat × Nat × List Nat),
      read_blocks_and_add_to_merkle_tree dsha expand s headers leaves = some res →
      ∀ j (hj : j < headers.length),
        chain_hash dsha s (headers.take (j + 1)) ≤ expand ((headers.get ⟨j, hj⟩).bits)) ∧
    (∀ (dsha : List Nat → Nat) (expand : Nat → Nat) (s : Nat) (headers : List BlockHeader)
      (res : Nat),
      read_blocks_and_calculate_work dsha expand s headers = some res →
      ∀ j (hj : j < headers.length),
        chain_hash dsha s (headers.take j) ≤ expand ((headers.get ⟨j, hj⟩).bits)) ∧
    (∀ (dsha : List Nat → Nat) (expand : Nat → Nat) (s : Nat) (h1 h2 : BlockHeader),
      h1.bits = h2.bits →
      dsha (serializeHeader h1 s) ≤ expand h1.bits →
      dsha (serializeHeader h2 (dsha (serializeHeader h1 s))) ≤ expand h2.bits →
      read_blocks_and_add_to_merkle_tree dsha expand s [h1, h2] [] =
        some (2 * (2 ^ 256 / (expand h1.bits + 1)) % 2 ^ 256, 0,
          dsha (serializeHeader h2 (dsha (serializeHeader h1 s))),
          [s, dsha (serializeHeader h1 s)])) ∧
    (∀ (dsha : List Nat → Nat) (expand : Nat → Nat) (s : Nat) (h1 h2 : BlockHeader),
      h1.bits = h2.bits →
      s ≤ expand h1.bits →
      dsha (serializeHeader h1 s) ≤ expand h2.bits →
      read_blocks_and_calculate_work dsha expand s [h1, h2] =
        some (2 * (2 ^ 256 / (expand h1.bits + 1)) % 2 ^ 256)) :=
  ⟨fun dsha expand s headers leaves res hrun =>
      rbamtLoop_hash_le dsha expand headers.length headers 0 s 0 0 leaves res hrun,
    fun dsha expand s headers res hrun =>
      rbcwLoop_hash_le dsha expand headers s 0 res hrun,
    fun dsha expand s h1 h2 => rbamt_two_headers dsha expand s h1 h2,
    fun dsha expand s h1 h2 => rbcw_two_headers dsha expand s h1 h2⟩

theorem c2_witness :
    zeroHeader.bits = zeroHeader.bits ∧
    t8Dsha (serializeHeader zeroHeader 0) ≤ t8Expand zeroHeader.bits ∧
    read_blocks_and_add_to_merkle_tree t8Dsha t8Expand 0 [zeroHeader, zeroHeader] [] =
      some (2 * (2 ^ 256 / (t8Expand zeroHeader.bits + 1)) % 2 ^ 256, 0,
        t8Dsha (serializeHeader zeroHeader (t8Dsha (serializeHeader zeroHeader 0))),
        [0, t8Dsha (serializeHeader zeroHeader 0)]) :=
  ⟨rfl, by decide,
    c2_work_accumulation_amended.2.2.1 t8Dsha t8Expand 0 zeroHeader zeroHeader rfl
      (by decide) (by decide)⟩

/-- C3: the claim says a `finish_proof = 1` round reaches the challenge
decision and terminates early iff `total_pow > verifiers_pow` and the tip
differs from `verifiers_last_finalized_bh`.  In the source no such round
reaches the decision: `read_preimages_and_calculate_commit_taproot`
(bridge.rs line 157) panics unconditionally first, so every round with
`finish_proof = 1` ends in a panic — the prover neither wins early nor
continues to the next period, whatever the work totals and block hashes
are. -/
theorem c3_finish_round_always_panics (dsha : List Nat → Nat) (expand : Nat → Nat)
    (r : Nat) (p : PeriodInput) (rest : List PeriodInput)
    (total0 last : Nat) (bleaves wmt : List Nat)
    (hfin : p.finish_proof = 1) :
    bridge_proof_loop dsha expand (r + 1) (p :: rest) total0 last bleaves wmt =
      BridgeOutcome.panicked := by
  cases hb : read_blocks_and_add_to_merkle_tree dsha expand last p.headers bleaves with
  | none => simp [bridge_proof_loop, hb]
  | some res =>
    obtain ⟨work, lc, cur, bleaves'⟩ := res
    cases hw : read_withdrawals wmt p.withdrawals with
    | none => simp [bridge_proof_loop, hb, hw]
    | some wmt' =>
      simp [bridge_proof_loop, hb, hw, hfin, read_preimages_and_calculate_commit_taproot]

theorem c3_witness :
    t3Period.finish_proof = 1 ∧
    bridge_proof_loop t3Dsha t3Expand 1 [t3Period] 0 7 [] [] = BridgeOutcome.panicked :=
  ⟨rfl, c3_finish_round_always_panics t3Dsha t3Expand 0 t3Period [] 0 7 [] [] rfl⟩

/-- C8: the light-client snapshot in `read_blocks_and_add_to_merkle_tree`
is taken at the fixed loop iteration `i = N - 4` — the hardcoded `4` the
source's own TODO comment (bridge.rs line 41) says should be
`MAX_BLOCK_HANDLE_OPS` — and equals the `prev_hash` carried into that
iteration. -/
theorem c8_lc_snapshot_at_offset_four (dsha : List Nat → Nat) (expand : Nat → Nat)
    (s : Nat) (headers : List BlockHeader) (leaves : List Nat)
    (w lc c : Nat) (lv : List Nat)
    (hrun : read_blocks_and_add_to_merkle_tree dsha expand s headers leaves =
      some (w, lc, c, lv))
    (hlen : 4 ≤ headers.length) :
    lc = chain_hash dsha s (headers.take (headers.length - 4)) :=
  (rbamtLoop_lc dsha expand headers.length headers 0 s 0 0 leaves w lc c lv hrun
    (by omega)).1 hlen

theorem c8_witness :
    read_blocks_and_add_to_merkle_tree t8Dsha t8Expand 0 t8Headers [] =
      some (2 ^ 255, 3, 3, [0, 3, 3, 3, 3, 3]) ∧
    4 ≤ t8Headers.length ∧
    3 = chain_hash t8Dsha 0 (t8Headers.take (t8Headers.length - 4)) :=
  ⟨by decide, by decide,
    c8_lc_snapshot_at_offset_four t8Dsha t8Expand 0 t8Headers [] (2 ^ 255) 3 3
      [0, 3, 3, 3, 3, 3] (by decide) (by decide)⟩

/-- C4 counterexample: the move transaction built and broadcast by
`Operator::deposit_happened` has a single output, not the two outputs the
claim ascribes to every operator move transaction. -/
theorem c4_counterexample :
    (deposit_happened_move_tx 100 7 ⟨1, 0⟩ [2]).output.length = 1 ∧
    (deposit_happened_move_tx 100 7 ⟨1, 0⟩ [2]).output.length ≠ 2 :=
  ⟨rfl, by decide⟩

/-- C4 (amended): the move transaction assembled in `Operator::new_deposit`
has one input (the deposit UTXO) and two outputs —
`BRIDGE_AMOUNT_SATS - DUST_VALUE - MIN_RELAY_FEE` to the
n-of-n-without-hash script and `DUST_VALUE` to the anyone-can-spend output
— while the move transaction built and broadcast in
`Operator::deposit_happened` has one input and exactly one output paying
`BRIDGE_AMOUNT_SATS - MIN_RELAY_FEE` to the taproot address of the
n-of-n-without-hash script. -/
theorem c4_move_tx_shapes_amended (B D F : Nat) (deposit_utxo : OutPointM)
    (n_of_n_script acs_spk addr_spk : List Nat) :
    new_deposit_move_tx B D F deposit_utxo n_of_n_script acs_spk =
      ⟨[⟨deposit_utxo, SEQUENCE_MAX⟩],
        [⟨B - D - F, n_of_n_script⟩, ⟨D, acs_spk⟩]⟩ ∧
    deposit_happened_move_tx B F deposit_utxo addr_spk =
      ⟨[⟨deposit_utxo, SEQUENCE_MAX⟩], [⟨B - F, addr_spk⟩]⟩ :=
  ⟨rfl, rfl⟩

/-- C5: the claim transaction built by `Operator::claim_deposit` has
exactly two inputs — the pooled n-of-n move UTXO with the default sequence
and the connector leaf UTXO with sequence
`CONNECTOR_TREE_OPERATOR_TAKES_AFTER` — and exactly one output paying the
operator `BRIDGE_AMOUNT_SATS + DUST_VALUE - 2·MIN_RELAY_FEE`. -/
theorem c5_claim_tx_shape (B D F takesAfter : Nat) (fund_utxo connector_utxo : OutPointM)
    (operator_spk : List Nat) :
    claim_deposit_tx B D F takesAfter fund_utxo connector_utxo operator_spk =
      ⟨[⟨fund_utxo, SEQUENCE_MAX⟩, ⟨connector_utxo, takesAfter⟩],
        [⟨B + D - 2 * F, operator_spk⟩]⟩ := by
  simp [claim_deposit_tx, create_btc_tx, create_tx_ins, create_tx_ins_with_sequence,
    create_tx_outs, Nat.mul_comm]

/-- C6 counterexample: the hash-guard tapscript ends in `OP_EQUAL`, not
the `OP_EQUALVERIFY` the claim states, exhibited on the all-zero hash. -/
theorem c6_counterexample :
    generate_hash_script (List.replicate 32 0) ≠ hashScriptSpec (List.replicate 32 0) :=
  by decide

/-- C6 (amended): for every 32-byte hash the hash-guard tapscript begins
with `OP_SHA256`, pushes the hash, and ends with `OP_EQUAL` — leaving a
boolean on the stack — rather than `OP_EQUALVERIFY`. -/
theorem c6_hash_script_amended (hash : List Nat) :
    generate_hash_script hash = [OP_SHA256] ++ pushSlice hash ++ [OP_EQUAL] ∧
    (generate_hash_script hash).getLast? = some OP_EQUAL ∧
    OP_EQUAL ≠ OP_EQUALVERIFY := by
  refine ⟨rfl, ?_, by decide⟩
  show ([OP_SHA256] ++ (pushSlice hash ++ [OP_EQUAL])).getLast? = some OP_EQUAL
  rw [List.getLast?_append_of_ne_nil _ (by simp),
    List.getLast?_append_of_ne_nil _ (by simp)]
  rfl

/-- C9 counterexample: `op_return_txout` does not return an output whose
`script_pubkey` is the OP_RETURN script embedding the EVM address — at a
concrete hash function and address the produced output differs from that
claimed shape, because the source wraps the script in P2WSH. -/
theorem c9_counterexample :
    op_return_txout (fun _ => List.replicate 32 0) (fun _ => 330) (List.replicate 20 1) ≠
      opReturnTxoutSpec (fun _ => 330) (List.replicate 20 1) :=
  by decide

/-- C9 (amended): for every 20-byte EVM address, `op_return_txout` builds
the OP_RETURN script embedding the address but returns an output whose
`script_pubkey` is the **P2WSH wrap** of that script (`OP_0` followed by
the 32-byte SHA-256 push), valued at the dust threshold of the wrapped
script. -/
theorem c9_op_return_txout_amended (sha : List Nat → List Nat) (dust : List Nat → Nat)
    (evm_address : List Nat) :
    op_return_txout sha dust evm_address =
      ⟨dust (to_p2wsh sha (generate_dust_script evm_address)),
        to_p2wsh sha (generate_dust_script evm_address)⟩ ∧
    (op_return_txout sha dust evm_address).script_pubkey.head? = some 0 :=
  ⟨rfl, rfl⟩

end Clementine
